import Mathlib

/-!
Shallow embedding of the fincast backend engine (src/backend/algorithms.py and
the analytical core of src/backend/main.py), together with theorems settling
the specification claims about it.

Numbers are modelled as real numbers; Python's banker's rounding (round-half-
to-even) is modelled exactly by `pyRound` / `pyRoundDec`.  The third-party
Holt-Winters optimiser fit (statsmodels) is modelled as an oracle parameter;
everything else is translated directly from the source.
-/

noncomputable section

/-- Python's built-in `round(x)`: round to the nearest integer, ties to the
even integer (banker's rounding). -/
def pyRound (x : ℝ) : ℤ :=
  let f := ⌊x⌋
  if x - f < 1/2 then f
  else if 1/2 < x - f then f + 1
  else if f % 2 = 0 then f else f + 1

/-- Python's `round(x, p)`: round to `p` decimal places, ties to even. -/
def pyRoundDec (x : ℝ) (p : ℕ) : ℝ :=
  ((pyRound (x * 10 ^ p) : ℤ) : ℝ) / 10 ^ p

theorem pyRound_sub_le (x : ℝ) : |(pyRound x : ℝ) - x| ≤ 1/2 := by
  have h0 : ((⌊x⌋ : ℤ) : ℝ) ≤ x := Int.floor_le x
  have h1 : x < ⌊x⌋ + 1 := Int.lt_floor_add_one x
  simp only [pyRound]
  split_ifs with ha hb hc
  · rw [abs_le]; constructor <;> linarith
  · rw [abs_le]; push_cast; constructor <;> linarith
  · rw [abs_le]; constructor <;> linarith
  · rw [abs_le]; push_cast; constructor <;> linarith

theorem pyRound_eq_low (x : ℝ) (n : ℤ) (h0 : (n:ℝ) ≤ x) (h1 : x < n + 1)
    (h : x - n < 1/2) : pyRound x = n := by
  have hf : ⌊x⌋ = n := Int.floor_eq_iff.mpr ⟨h0, h1⟩
  simp only [pyRound, hf]
  rw [if_pos h]

theorem pyRound_eq_high (x : ℝ) (n : ℤ) (h0 : (n:ℝ) ≤ x) (h1 : x < n + 1)
    (h : 1/2 < x - n) : pyRound x = n + 1 := by
  have hf : ⌊x⌋ = n := Int.floor_eq_iff.mpr ⟨h0, h1⟩
  simp only [pyRound, hf]
  rw [if_neg (by linarith), if_pos h]

theorem pyRound_tie_even (x : ℝ) (n : ℤ) (h0 : (n:ℝ) ≤ x) (h1 : x < n + 1)
    (h : x - n = 1/2) (he : n % 2 = 0) : pyRound x = n := by
  have hf : ⌊x⌋ = n := Int.floor_eq_iff.mpr ⟨h0, h1⟩
  simp only [pyRound, hf]
  rw [if_neg (by linarith), if_neg (by linarith), if_pos he]

theorem pyRound_tie_odd (x : ℝ) (n : ℤ) (h0 : (n:ℝ) ≤ x) (h1 : x < n + 1)
    (h : x - n = 1/2) (he : ¬ n % 2 = 0) : pyRound x = n + 1 := by
  have hf : ⌊x⌋ = n := Int.floor_eq_iff.mpr ⟨h0, h1⟩
  simp only [pyRound, hf]
  rw [if_neg (by linarith), if_neg (by linarith), if_neg he]

theorem pyRound_int (n : ℤ) (x : ℝ) (h : x = n) : pyRound x = n := by
  subst h
  exact pyRound_eq_low _ n le_rfl (by linarith) (by norm_num)

theorem pyRound_nonpos (x : ℝ) (h : x ≤ 0) : pyRound x ≤ 0 := by
  have hb := pyRound_sub_le x
  rw [abs_le] at hb
  have : ((pyRound x : ℤ) : ℝ) < 1 := by linarith
  have : (pyRound x : ℤ) < 1 := by exact_mod_cast this
  omega

theorem pyRoundDec_err (x : ℝ) (p : ℕ) : |pyRoundDec x p - x| ≤ 1/2 / 10 ^ p := by
  have h := pyRound_sub_le (x * 10 ^ p)
  have hp : (0:ℝ) < 10 ^ p := by positivity
  have e : pyRoundDec x p - x = ((pyRound (x * 10 ^ p) : ℝ) - x * 10 ^ p) / 10 ^ p := by
    simp only [pyRoundDec]
    field_simp
    ring
  rw [e, abs_div, abs_of_pos hp]
  gcongr

/-!  ## Core mathematical utilities (algorithms.py)  -/

/-- Recursion of `countback_dso`'s loop: walk the monthly sales, consuming the
remaining balance; a fully-consumed month adds 30 days, the final partially
consumed month adds a fractional share (0 when its sales are 0). -/
def countbackGo (remainder : ℝ) : List ℝ → ℝ
  | [] => 0
  | month_sales :: rest =>
    if month_sales < remainder then 30 + countbackGo (remainder - month_sales) rest
    else (if 0 < month_sales then remainder / month_sales else 0) * 30

/-- `countback_dso` from algorithms.py: countback (exhaustion) method for DSO. -/
def countback_dso (ar_balance : ℝ) (historical_sales : List ℝ) : ℝ :=
  countbackGo ar_balance historical_sales

theorem countbackGo_bounds :
    ∀ (sales : List ℝ) (r : ℝ), 0 ≤ r → (∀ s ∈ sales, 0 ≤ s) →
      0 ≤ countbackGo r sales ∧ countbackGo r sales ≤ 30 * sales.length := by
  intro sales
  induction sales with
  | nil => intro r _ _; simp [countbackGo]
  | cons s rest ih =>
    intro r hr hall
    have hs : 0 ≤ s := hall s (by simp)
    have hrest : ∀ x ∈ rest, 0 ≤ x := fun x hx => hall x (by simp [hx])
    by_cases h : s < r
    · have h2 : 0 ≤ r - s := by linarith
      obtain ⟨ih1, ih2⟩ := ih (r - s) h2 hrest
      constructor
      · simp only [countbackGo, if_pos h]; linarith
      · simp only [countbackGo, if_pos h, List.length_cons]
        push_cast
        linarith
    · have hle : r ≤ s := le_of_not_lt h
      have hlen : (0:ℝ) ≤ rest.length := by positivity
      constructor
      · simp only [countbackGo, if_neg h]
        by_cases hsp : 0 < s
        · rw [if_pos hsp]
          have : 0 ≤ r / s := div_nonneg hr hsp.le
          linarith
        · rw [if_neg hsp]; norm_num
      · simp only [countbackGo, if_neg h, List.length_cons]
        by_cases hsp : 0 < s
        · rw [if_pos hsp]
          have : r / s ≤ 1 := (div_le_one hsp).mpr hle
          push_cast
          nlinarith
        · rw [if_neg hsp]; push_cast; nlinarith

/-- C10: for every non-negative receivables balance and non-negative monthly
sales list, `countback_dso` is total and yields a value in `[0, 30·length]`,
and a zero-sales month with a still-positive remaining balance contributes a
full 30 days. -/
theorem countback_dso_props (ar : ℝ) (sales : List ℝ)
    (har : 0 ≤ ar) (hs : ∀ s ∈ sales, 0 ≤ s) :
    0 ≤ countback_dso ar sales ∧
    countback_dso ar sales ≤ 30 * sales.length ∧
    (∀ rest : List ℝ, 0 < ar → countback_dso ar (0 :: rest) = 30 + countback_dso ar rest) := by
  obtain ⟨h1, h2⟩ := countbackGo_bounds sales ar har hs
  refine ⟨h1, h2, ?_⟩
  intro rest hpos
  simp only [countback_dso, countbackGo, if_pos hpos, sub_zero]

/-- C10 witness. -/
theorem countback_dso_props_witness :
    0 ≤ countback_dso 60 [40, 40] ∧
    countback_dso 60 [40, 40] ≤ 30 * ([40, 40] : List ℝ).length ∧
    (∀ rest : List ℝ, 0 < (60:ℝ) →
      countback_dso 60 (0 :: rest) = 30 + countback_dso 60 rest) :=
  countback_dso_props 60 [40, 40] (by norm_num)
    (by intro s hs; fin_cases hs <;> norm_num)

/-!  ## Statutory advance tax scheduler (algorithms.py)  -/

/-- The fixed statutory installment table, 0-indexed forecast month to
percentage of annual liability. -/
def ADVANCE_TAX_SCHEDULE : List (ℕ × ℝ) := [(2, 0.15), (5, 0.30), (8, 0.30), (11, 0.25)]

/-- `compute_advance_tax_schedule` from algorithms.py. -/
def compute_advance_tax_schedule (monthly_net_profits : List ℝ) (tax_rate : ℝ) : List ℝ :=
  let estimated_annual_profit := monthly_net_profits.sum
  if estimated_annual_profit ≤ 0 then List.replicate 12 0
  else
    let annual_tax_liability := estimated_annual_profit * tax_rate
    ADVANCE_TAX_SCHEDULE.foldl
      (fun acc p => acc.set p.1 (pyRoundDec (annual_tax_liability * p.2) 2))
      (List.replicate 12 0)

theorem advtax_pos_eq (l : List ℝ) (r : ℝ) (h : 0 < l.sum) :
    compute_advance_tax_schedule l r =
      [0, 0, pyRoundDec (l.sum * r * 0.15) 2, 0, 0, pyRoundDec (l.sum * r * 0.30) 2,
       0, 0, pyRoundDec (l.sum * r * 0.30) 2, 0, 0, pyRoundDec (l.sum * r * 0.25) 2] := by
  simp only [compute_advance_tax_schedule, if_neg (not_le.mpr h), ADVANCE_TAX_SCHEDULE]
  norm_num [List.foldl, List.replicate, List.set]

theorem advtax_zero_rate (l : List ℝ) :
    compute_advance_tax_schedule l 0 = List.replicate 12 0 := by
  by_cases h : l.sum ≤ 0
  · simp only [compute_advance_tax_schedule, if_pos h]
  · rw [advtax_pos_eq l 0 (lt_of_not_le h)]
    have hz : ∀ c : ℝ, pyRoundDec (l.sum * 0 * c) 2 = 0 := by
      intro c
      simp only [pyRoundDec]
      rw [pyRound_int 0 _ (by push_cast; ring)]
      norm_num
    simp only [hz]
    rfl

theorem advtax_head (l : List ℝ) (r : ℝ) :
    ∃ t, compute_advance_tax_schedule l r = 0 :: t := by
  by_cases h : l.sum ≤ 0
  · refine ⟨List.replicate 11 0, ?_⟩
    simp only [compute_advance_tax_schedule, if_pos h]
    rfl
  · exact ⟨[0, pyRoundDec (l.sum * r * 0.15) 2, 0, 0, pyRoundDec (l.sum * r * 0.30) 2,
            0, 0, pyRoundDec (l.sum * r * 0.30) 2, 0, 0, pyRoundDec (l.sum * r * 0.25) 2],
           advtax_pos_eq l r (lt_of_not_le h)⟩

theorem advtax_length (l : List ℝ) (r : ℝ) :
    (compute_advance_tax_schedule l r).length = 12 := by
  by_cases h : l.sum ≤ 0
  · simp [compute_advance_tax_schedule, if_pos h]
  · rw [advtax_pos_eq l r (lt_of_not_le h)]
    simp

/-- C3: a loss-making (or break-even) annual projection yields an all-zero
advance tax schedule. -/
theorem tax_schedule_zero_on_loss (l : List ℝ) (r : ℝ)
    (h12 : l.length = 12) (h : l.sum ≤ 0) :
    compute_advance_tax_schedule l r = List.replicate 12 0 := by
  simp only [compute_advance_tax_schedule, if_pos h]

/-- C3 witness. -/
theorem tax_schedule_zero_on_loss_witness :
    compute_advance_tax_schedule (List.replicate 12 (-1)) 0.3 = List.replicate 12 0 :=
  tax_schedule_zero_on_loss (List.replicate 12 (-1)) 0.3 (by simp)
    (by norm_num [List.sum_replicate])

/-- C1: for a 12-month profit list with positive sum and any tax rate, the
schedule is 12 long, zero away from positions 2/5/8/11, carries
`round(liability·pct, 2)` at those positions with pcts 0.15/0.30/0.30/0.25,
the four installments sum to `round(liability, 2)` within `1/40` currency
units, and the flat-100000 scenario at rate 0.25 yields
`[0,0,45000,0,0,90000,0,0,90000,0,0,75000]`. -/
theorem advance_tax_schedule_props (l : List ℝ) (r : ℝ)
    (h12 : l.length = 12) (hpos : 0 < l.sum) :
    (compute_advance_tax_schedule l r).length = 12 ∧
    (∀ i, i < 12 → i ≠ 2 → i ≠ 5 → i ≠ 8 → i ≠ 11 →
      (compute_advance_tax_schedule l r).getD i 0 = 0) ∧
    (compute_advance_tax_schedule l r).getD 2 0 = pyRoundDec (l.sum * r * 0.15) 2 ∧
    (compute_advance_tax_schedule l r).getD 5 0 = pyRoundDec (l.sum * r * 0.30) 2 ∧
    (compute_advance_tax_schedule l r).getD 8 0 = pyRoundDec (l.sum * r * 0.30) 2 ∧
    (compute_advance_tax_schedule l r).getD 11 0 = pyRoundDec (l.sum * r * 0.25) 2 ∧
    |(compute_advance_tax_schedule l r).getD 2 0 + (compute_advance_tax_schedule l r).getD 5 0 +
      (compute_advance_tax_schedule l r).getD 8 0 + (compute_advance_tax_schedule l r).getD 11 0 -
      pyRoundDec (l.sum * r) 2| ≤ 1/40 ∧
    compute_advance_tax_schedule (List.replicate 12 100000) 0.25 =
      [0, 0, 45000, 0, 0, 90000, 0, 0, 90000, 0, 0, 75000] := by
  have he := advtax_pos_eq l r hpos
  rw [he]
  refine ⟨rfl, ?_, rfl, rfl, rfl, rfl, ?_, ?_⟩
  · intro i hi i2 i5 i8 i11
    interval_cases i <;> first | rfl | omega
  · show |pyRoundDec (l.sum * r * 0.15) 2 + pyRoundDec (l.sum * r * 0.30) 2 +
      pyRoundDec (l.sum * r * 0.30) 2 + pyRoundDec (l.sum * r * 0.25) 2 -
      pyRoundDec (l.sum * r) 2| ≤ 1/40
    have e2 := pyRoundDec_err (l.sum * r * 0.15) 2
    have e5 := pyRoundDec_err (l.sum * r * 0.30) 2
    have e11 := pyRoundDec_err (l.sum * r * 0.25) 2
    have eR := pyRoundDec_err (l.sum * r) 2
    rw [abs_le] at e2 e5 e11 eR ⊢
    have hs : l.sum * r * 0.15 + l.sum * r * 0.30 + l.sum * r * 0.30 + l.sum * r * 0.25
        = l.sum * r := by ring
    norm_num at e2 e5 e11 eR ⊢
    constructor <;> linarith
  · have hsum : (0:ℝ) < (List.replicate 12 (100000:ℝ)).sum := by
      norm_num [List.sum_replicate]
    rw [advtax_pos_eq _ _ hsum]
    have hs : (List.replicate 12 (100000:ℝ)).sum = 1200000 := by
      norm_num [List.sum_replicate]
    rw [hs]
    have ha : pyRoundDec ((1200000:ℝ) * 0.25 * 0.15) 2 = 45000 := by
      simp only [pyRoundDec]
      rw [pyRound_int 4500000 _ (by norm_num)]
      norm_num
    have hb : pyRoundDec ((1200000:ℝ) * 0.25 * 0.30) 2 = 90000 := by
      simp only [pyRoundDec]
      rw [pyRound_int 9000000 _ (by norm_num)]
      norm_num
    have hc : pyRoundDec ((1200000:ℝ) * 0.25 * 0.25) 2 = 75000 := by
      simp only [pyRoundDec]
      rw [pyRound_int 7500000 _ (by norm_num)]
      norm_num
    rw [ha, hb, hc]

/-!  ## Forecasting methods (algorithms.py)  -/

/-- `calculate_geometric_growth` from algorithms.py: geometric-mean growth of
the strictly positive entries; 0 when fewer than two usable points. -/
def calculate_geometric_growth (data : List ℝ) : ℝ :=
  if data.length < 2 then 0
  else
    let sanitized := data.filter (fun d => decide (0 < d))
    if sanitized.length < 2 then 0
    else
      let product := (sanitized.zip sanitized.tail).foldl (fun acc p => acc * (p.2 / p.1)) 1
      product ^ ((1 : ℝ) / ((sanitized.length : ℝ) - 1)) - 1

/-- The compounding loop of `straight_line_forecast`: repeatedly multiply the
base by `1 + growth` and emit `max 0 base`. -/
def slfAux (growth : ℝ) : ℕ → ℝ → List ℝ
  | 0, _ => []
  | n + 1, base =>
    max 0 (base * (1 + growth)) :: slfAux growth n (base * (1 + growth))

/-- `straight_line_forecast` from algorithms.py: constant growth from the
geometric mean, capped to ±15%. -/
def straight_line_forecast (data : List ℝ) (periods : ℕ) : List ℝ :=
  if data.length < 2 then List.replicate periods (max 0 (data.getLastD 0))
  else
    let growth := max (-0.15) (min 0.15 (calculate_geometric_growth data))
    slfAux growth periods (data.getLastD 0)

/-- `simple_linear_regression` from algorithms.py: ordinary least squares over
the time index (the closed form of the sklearn fit), clamped at 0. -/
def simple_linear_regression (data : List ℝ) (periods : ℕ) : List ℝ :=
  if data.length < 3 then straight_line_forecast data periods
  else
    let n : ℝ := data.length
    let xs : List ℝ := (List.range data.length).map (fun i => (i : ℝ))
    let sx := xs.sum
    let sy := data.sum
    let sxy := ((xs.zip data).map (fun p => p.1 * p.2)).sum
    let sxx := (xs.map (fun x => x * x)).sum
    let slope := (n * sxy - sx * sy) / (n * sxx - sx * sx)
    let intercept := (sy - slope * sx) / n
    (List.range periods).map
      (fun j : ℕ => max 0 (slope * ((data.length : ℝ) + (j : ℝ)) + intercept))

/-- The seasonal-period ladder of `adaptive_holt_winters_forecast`; the actual
statsmodels fit result is the oracle `hw period data periods` (`none` models a
raised exception). -/
def hwFitChoice (hw : ℕ → List ℝ → ℕ → Option (List ℝ)) (data : List ℝ) (periods : ℕ) :
    Option (List ℝ) :=
  if 24 ≤ data.length then hw 12 data periods
  else if 12 ≤ data.length then hw 6 data periods
  else if 9 ≤ data.length then hw 4 data periods
  else hw 0 data periods

/-- `adaptive_holt_winters_forecast` from algorithms.py: the selection ladder
with the sanity-check fallback to linear regression. -/
def adaptive_holt_winters_forecast (hw : ℕ → List ℝ → ℕ → Option (List ℝ))
    (data : List ℝ) (periods : ℕ) : List ℝ :=
  if data.length < 6 then simple_linear_regression data periods
  else
    match hwFitChoice hw data periods with
    | none => simple_linear_regression data periods
    | some raw =>
      let result := raw.map (fun v => max 0 v)
      let last_val := if 0 < data.getLastD 0 then data.getLastD 0 else 1
      if result.any (fun v => decide (last_val * 5 < v) || decide (v < 0)) then
        simple_linear_regression data periods
      else result

/-- `multiple_linear_regression_forecast` from algorithms.py: delegates to the
adaptive Holt-Winters selector. -/
def multiple_linear_regression_forecast (hw : ℕ → List ℝ → ℕ → Option (List ℝ))
    (data : List ℝ) (periods : ℕ) : List ℝ :=
  adaptive_holt_winters_forecast hw data periods

theorem slfAux_length (g : ℝ) : ∀ (n : ℕ) (b : ℝ), (slfAux g n b).length = n := by
  intro n
  induction n with
  | zero => intro b; simp [slfAux]
  | succ k ih => intro b; simp [slfAux, ih]

theorem slfAux_nonneg (g : ℝ) : ∀ (n : ℕ) (b : ℝ), ∀ v ∈ slfAux g n b, 0 ≤ v := by
  intro n
  induction n with
  | zero => intro b v hv; simp [slfAux] at hv
  | succ k ih =>
    intro b v hv
    simp only [slfAux, List.mem_cons] at hv
    rcases hv with h | h
    · rw [h]; exact le_max_left _ _
    · exact ih _ v h

theorem slf_length (data : List ℝ) (p : ℕ) : (straight_line_forecast data p).length = p := by
  unfold straight_line_forecast
  split_ifs
  · simp
  · simp [slfAux_length]

theorem slf_nonneg (data : List ℝ) (p : ℕ) :
    ∀ v ∈ straight_line_forecast data p, 0 ≤ v := by
  unfold straight_line_forecast
  split_ifs
  · intro v hv
    rw [List.eq_of_mem_replicate hv]
    exact le_max_left _ _
  · exact slfAux_nonneg _ _ _

theorem slr_length (data : List ℝ) (p : ℕ) :
    (simple_linear_regression data p).length = p := by
  unfold simple_linear_regression
  split_ifs
  · exact slf_length data p
  · rw [List.length_map, List.length_range]

theorem slr_nonneg (data : List ℝ) (p : ℕ) :
    ∀ v ∈ simple_linear_regression data p, 0 ≤ v := by
  unfold simple_linear_regression
  split_ifs
  · exact slf_nonneg data p
  · intro v hv
    simp only [List.mem_map] at hv
    obtain ⟨j, _, hj⟩ := hv
    rw [← hj]
    exact le_max_left _ _

theorem ahw_eq_short (hw : ℕ → List ℝ → ℕ → Option (List ℝ)) (data : List ℝ) (p : ℕ)
    (h6 : data.length < 6) :
    adaptive_holt_winters_forecast hw data p = simple_linear_regression data p := by
  unfold adaptive_holt_winters_forecast
  rw [if_pos h6]

theorem ahw_eq_of_none (hw : ℕ → List ℝ → ℕ → Option (List ℝ)) (data : List ℝ) (p : ℕ)
    (h6 : ¬ data.length < 6) (hF : hwFitChoice hw data p = none) :
    adaptive_holt_winters_forecast hw data p = simple_linear_regression data p := by
  unfold adaptive_holt_winters_forecast
  rw [if_neg h6, hF]

theorem ahw_eq_of_some (hw : ℕ → List ℝ → ℕ → Option (List ℝ)) (data : List ℝ) (p : ℕ)
    (raw : List ℝ) (h6 : ¬ data.length < 6) (hF : hwFitChoice hw data p = some raw) :
    adaptive_holt_winters_forecast hw data p =
      (if ((raw.map (fun v => max 0 v)).any
          (fun v => decide ((if 0 < data.getLastD 0 then data.getLastD 0 else 1) * 5 < v) ||
            decide (v < 0))) = true
       then simple_linear_regression data p
       else raw.map (fun v => max 0 v)) := by
  unfold adaptive_holt_winters_forecast
  rw [if_neg h6, hF]

theorem ahw_nonneg (hw : ℕ → List ℝ → ℕ → Option (List ℝ)) (data : List ℝ) (p : ℕ) :
    ∀ v ∈ adaptive_holt_winters_forecast hw data p, 0 ≤ v := by
  by_cases h6 : data.length < 6
  · rw [ahw_eq_short hw data p h6]
    exact slr_nonneg data p
  · cases hF : hwFitChoice hw data p with
    | none =>
      rw [ahw_eq_of_none hw data p h6 hF]
      exact slr_nonneg data p
    | some raw =>
      rw [ahw_eq_of_some hw data p raw h6 hF]
      by_cases hany : ((raw.map (fun v => max 0 v)).any
          (fun v => decide ((if 0 < data.getLastD 0 then data.getLastD 0 else 1) * 5 < v) ||
            decide (v < 0))) = true
      · rw [if_pos hany]
        exact slr_nonneg data p
      · rw [if_neg hany]
        intro v hv
        simp only [List.mem_map] at hv
        obtain ⟨w, _, hw2⟩ := hv
        rw [← hw2]
        exact le_max_left _ _

/-- C4 (amended): the Forecast Selector never returns a negative value, and
either its result is a linear-regression/flat fallback (on which no 5× bound
is enforced) or every value obeys the 5×-last-observation sanity bound. -/
theorem forecast_selector_bounds (hw : ℕ → List ℝ → ℕ → Option (List ℝ))
    (data : List ℝ) (periods : ℕ) (hne : data ≠ []) :
    (∀ v ∈ adaptive_holt_winters_forecast hw data periods, 0 ≤ v) ∧
    (adaptive_holt_winters_forecast hw data periods = simple_linear_regression data periods ∨
      ∀ v ∈ adaptive_holt_winters_forecast hw data periods,
        v ≤ (if 0 < data.getLastD 0 then data.getLastD 0 else 1) * 5) := by
  refine ⟨ahw_nonneg hw data periods, ?_⟩
  by_cases h6 : data.length < 6
  · left
    exact ahw_eq_short hw data periods h6
  · cases hF : hwFitChoice hw data periods with
    | none =>
      left
      exact ahw_eq_of_none hw data periods h6 hF
    | some raw =>
      by_cases hany : ((raw.map (fun v => max 0 v)).any
          (fun v => decide ((if 0 < data.getLastD 0 then data.getLastD 0 else 1) * 5 < v) ||
            decide (v < 0))) = true
      · left
        rw [ahw_eq_of_some hw data periods raw h6 hF, if_pos hany]
      · right
        intro v hv
        rw [ahw_eq_of_some hw data periods raw h6 hF, if_neg hany] at hv
        rw [List.any_eq_true] at hany
        push_neg at hany
        have h := hany v hv
        simp only [ne_eq, Bool.or_eq_true, decide_eq_true_eq, not_or] at h
        exact le_of_not_lt h.1

/-- C4 witness. -/
theorem forecast_selector_bounds_witness :
    (∀ v ∈ adaptive_holt_winters_forecast (fun _ _ _ => none) [(1:ℝ)] 12, 0 ≤ v) ∧
    (adaptive_holt_winters_forecast (fun _ _ _ => none) [(1:ℝ)] 12 =
        simple_linear_regression [(1:ℝ)] 12 ∨
      ∀ v ∈ adaptive_holt_winters_forecast (fun _ _ _ => none) [(1:ℝ)] 12,
        v ≤ (if 0 < ([(1:ℝ)]).getLastD 0 then ([(1:ℝ)]).getLastD 0 else 1) * 5) :=
  forecast_selector_bounds (fun _ _ _ => none) [(1:ℝ)] 12 (by simp)

/-- C4 counterexample: history `[1,3,5]` (non-empty) is served by the
linear-regression fallback and contains the value 29, which exceeds five
times the last historical observation (5·5 = 25). -/
theorem forecast_selector_five_times_cex :
    ([( 1:ℝ), 3, 5].getLastD 0 = 5) ∧
    (29:ℝ) ∈ adaptive_holt_winters_forecast (fun _ _ _ => none) [1, 3, 5] 12 ∧
    (5:ℝ) * 5 < 29 := by
  refine ⟨by simp, ?_, by norm_num⟩
  have e3 : List.range 3 = [0, 1, 2] := rfl
  rw [ahw_eq_short (fun _ _ _ => none) [1, 3, 5] 12 (by simp)]
  unfold simple_linear_regression
  rw [if_neg (by simp : ¬ (([(1:ℝ), 3, 5]).length < 3))]
  norm_num [List.mem_map, List.mem_range]
  refine ⟨11, by norm_num, ?_⟩
  rw [e3]
  norm_num [List.map_cons, List.map_nil, List.zip_cons_cons, List.zip_nil_right,
    List.sum_cons, List.sum_nil]

/-- C7 (amended): a history with fewer than two entries yields a flat
continuation of `max 0 last` (12 zeros when empty). -/
theorem forecast_flat_short_history (hw : ℕ → List ℝ → ℕ → Option (List ℝ))
    (data : List ℝ) (periods : ℕ) (h : data.length < 2) :
    adaptive_holt_winters_forecast hw data periods =
      List.replicate periods (max 0 (data.getLastD 0)) := by
  have h6 : data.length < 6 := by omega
  have h3 : data.length < 3 := by omega
  simp only [adaptive_holt_winters_forecast, if_pos h6, simple_linear_regression, if_pos h3,
    straight_line_forecast, if_pos h]

/-- C7 witness. -/
theorem forecast_flat_short_history_witness :
    adaptive_holt_winters_forecast (fun _ _ _ => none) [(5:ℝ)] 12 =
      List.replicate 12 (max 0 (([(5:ℝ)]).getLastD 0)) :=
  forecast_flat_short_history (fun _ _ _ => none) [(5:ℝ)] 12 (by simp)

theorem cgg_pair (a b : ℝ) (ha : 0 < a) (hb : 0 < b) :
    calculate_geometric_growth [a, b] = b / a - 1 := by
  have d1 : decide (0 < a) = true := decide_eq_true ha
  have d2 : decide (0 < b) = true := decide_eq_true hb
  simp only [calculate_geometric_growth, List.length_cons, List.length_nil, List.filter_cons,
    List.filter_nil, d1, d2, if_true]
  norm_num [List.zip_cons_cons, List.foldl]

/-- C7 counterexample: the two-element history `[100, 200]` (fewer than 3
entries) is not continued flat: the first forecast value is 230, not 200. -/
theorem forecast_two_points_not_flat_cex :
    (adaptive_holt_winters_forecast (fun _ _ _ => none) [100, 200] 12).getD 0 0 = 230 ∧
    ((230:ℝ) ≠ 200) ∧ (([100, (200:ℝ)]).length < 3) := by
  refine ⟨?_, by norm_num, by simp⟩
  have hgg : calculate_geometric_growth [100, 200] = 1 := by
    rw [cgg_pair 100 200 (by norm_num) (by norm_num)]
    norm_num
  have h6 : ([100, (200:ℝ)]).length < 6 := by simp
  have h3 : ([100, (200:ℝ)]).length < 3 := by simp
  have h2 : ¬ (([100, (200:ℝ)]).length < 2) := by simp
  simp only [adaptive_holt_winters_forecast, if_pos h6, simple_linear_regression, if_pos h3,
    straight_line_forecast, if_neg h2, hgg]
  rw [show max (-0.15) (min 0.15 (1:ℝ)) = 0.15 by
    rw [min_eq_left (by norm_num), max_eq_right (by norm_num)]]
  rw [show (([100, (200:ℝ)]).getLastD 0) = 200 by simp]
  rw [show slfAux 0.15 12 (200:ℝ) =
      max 0 ((200:ℝ) * (1 + 0.15)) :: slfAux 0.15 11 ((200:ℝ) * (1 + 0.15)) from rfl]
  simp only [List.getD_cons_zero]
  rw [max_eq_right (by norm_num : (0:ℝ) ≤ 200 * (1 + 0.15))]
  norm_num

/-!  ## Cost decomposition (algorithms.py / main.py)  -/

/-- `percent_of_sales` from algorithms.py. -/
def percent_of_sales (dependent_var_history : List ℝ) (revenue_history : List ℝ) : ℝ :=
  if revenue_history.sum = 0 then 0 else dependent_var_history.sum / revenue_history.sum

/-- A normalized monthly record as produced by the (out-of-scope) ingestion
layer and consumed by `analyze_file` in main.py. -/
structure MonthlyRecord where
  month : String := ("")
  revenue : ℝ := 0
  cogs : ℝ := 0
  opex : ℝ := 0
  payroll : ℝ := 0
  debt_service : ℝ := 0
  capex : ℝ := 0
  ar_balance : ℝ := 0
  ap_balance : ℝ := 0
  cash_balance : ℝ := 0
  line_items : List (String × ℝ) := []

/-- One `hist_line_item_sums[k] = hist_line_item_sums.get(k, 0) + v` update of
main.py, on an association list preserving first-insertion order like a
Python dict. -/
def addLineItem (acc : List (String × ℝ)) (k : String) (v : ℝ) : List (String × ℝ) :=
  if acc.any (fun p => decide (p.1 = k)) then
    acc.map (fun p => if p.1 = k then (p.1, p.2 + v) else p)
  else acc ++ [(k, v)]

/-- The `hist_line_item_sums` accumulation loop of main.py. -/
def histLineItemSums (data : List MonthlyRecord) : List (String × ℝ) :=
  data.foldl (fun acc r => r.line_items.foldl (fun a q => addLineItem a q.1 q.2) acc) []

/-- The `line_item_pcts` computation of main.py: each item's historical total
divided by total historical opex; empty when that total is not positive. -/
def line_item_pcts_of (data : List MonthlyRecord) : List (String × ℝ) :=
  let total_opex_historical := (data.map (fun r => r.opex)).sum
  if 0 < total_opex_historical then
    (histLineItemSums data).map (fun p => (p.1, p.2 / total_opex_historical))
  else []

/-- The per-row `proj_line_items[k] = round(proj_opex * pct)` loop of main.py. -/
def projLineItems (pcts : List (String × ℝ)) (proj_opex : ℝ) : List (String × ℤ) :=
  pcts.map (fun p => (p.1, pyRound (proj_opex * p.2)))

theorem sum_map_mul_left_pairs (c : ℝ) (l : List (String × ℝ)) :
    (l.map (fun p => c * p.2)).sum = c * (l.map (fun p => p.2)).sum := by
  induction l with
  | nil => simp
  | cons q u ih =>
    simp only [List.map_cons, List.sum_cons, ih]
    ring

theorem roundSum_err : ∀ xs : List ℝ,
    |((xs.map (fun x => ((pyRound x : ℤ) : ℝ))).sum) - xs.sum| ≤ xs.length * (1/2) := by
  intro xs
  induction xs with
  | nil => simp
  | cons a t ih =>
    simp only [List.map_cons, List.sum_cons, List.length_cons]
    have h := pyRound_sub_le a
    have habs := abs_add ((pyRound a : ℝ) - a)
      ((t.map (fun x => ((pyRound x : ℤ) : ℝ))).sum - t.sum)
    have e : (pyRound a : ℝ) + (t.map (fun x => ((pyRound x : ℤ) : ℝ))).sum - (a + t.sum)
        = ((pyRound a : ℝ) - a) +
          ((t.map (fun x => ((pyRound x : ℤ) : ℝ))).sum - t.sum) := by ring
    rw [e]
    push_cast
    calc |((pyRound a : ℝ) - a) + ((t.map (fun x => ((pyRound x : ℤ) : ℝ))).sum - t.sum)|
        ≤ |(pyRound a : ℝ) - a| +
          |(t.map (fun x => ((pyRound x : ℤ) : ℝ))).sum - t.sum| := habs
      _ ≤ 1/2 + t.length * (1/2) := by gcongr
      _ = (t.length + 1) * (1/2) := by ring

/-- C8 (amended): each projected line item is `round(forecast_opex · ratio)`;
when the derived ratios fully cover historical opex (they sum to 1), the
projected items sum to the forecast opex within (number of items) units; the
Marketing 0.3 / Rent 0.7 scenario yields 45000/105000, within 2 of 150000. -/
theorem line_items_proportional (pcts : List (String × ℝ)) (opexF : ℝ)
    (hcover : (pcts.map (fun p => p.2)).sum = 1) :
    (projLineItems pcts opexF).map (fun p => p.2) =
      pcts.map (fun p => pyRound (opexF * p.2)) ∧
    |((pcts.map (fun p => ((pyRound (opexF * p.2) : ℤ) : ℝ))).sum) - opexF| ≤ pcts.length ∧
    projLineItems [(("Marketing"), 0.3), (("Rent"), 0.7)] 150000 =
      [(("Marketing"), 45000), (("Rent"), 105000)] ∧
    |(45000 + 105000 : ℝ) - 150000| ≤ 2 := by
  refine ⟨by simp [projLineItems], ?_, ?_, by norm_num⟩
  · have key := roundSum_err (pcts.map (fun p => opexF * p.2))
    rw [List.map_map, List.length_map] at key
    have hs : (pcts.map (fun p => opexF * p.2)).sum = opexF := by
      rw [sum_map_mul_left_pairs, hcover, mul_one]
    rw [hs] at key
    have hlen : (pcts.length : ℝ) * (1/2) ≤ pcts.length := by
      have : (0:ℝ) ≤ pcts.length := by positivity
      linarith
    exact le_trans key hlen
  · simp only [projLineItems, List.map_cons, List.map_nil]
    rw [pyRound_int 45000 _ (by norm_num), pyRound_int 105000 _ (by norm_num)]

/-- C8 witness. -/
theorem line_items_proportional_witness :
    ((([(("Marketing"), (0.3:ℝ)), (("Rent"), 0.7)]).map (fun p => p.2)).sum = 1) ∧
    |((([(("Marketing"), (0.3:ℝ)), (("Rent"), 0.7)]).map
        (fun p => ((pyRound ((150000:ℝ) * p.2) : ℤ) : ℝ))).sum) - 150000| ≤
      (([(("Marketing"), (0.3:ℝ)), (("Rent"), 0.7)]).length : ℝ) :=
  ⟨by norm_num,
   (line_items_proportional [(("Marketing"), 0.3), (("Rent"), 0.7)] 150000
      (by norm_num)).2.1⟩

/-- Concrete history for the C8 counterexample: the only line item covers a
tenth of historical opex. -/
def recsC8 : List MonthlyRecord :=
  [{ opex := 100, line_items := [(("A"), 30)] }, { opex := 100 }, { opex := 100 }]

/-- C8 counterexample: ratios derived from a history whose line items do not
cover opex (here a single item A at ratio 0.1) break the claimed bound: the
projected items sum to 15000, which is 135000 away from the forecast opex
150000, far beyond (number of items) = 1 unit. -/
theorem line_items_coverage_cex :
    line_item_pcts_of recsC8 = [(("A"), 1/10)] ∧
    projLineItems (line_item_pcts_of recsC8) 150000 = [(("A"), 15000)] ∧
    ¬ (|(15000:ℝ) - 150000| ≤ ((line_item_pcts_of recsC8).length : ℝ)) := by
  have hsums : histLineItemSums recsC8 = [(("A"), 30)] := by
    simp [histLineItemSums, recsC8, addLineItem, List.foldl]
  have htot : ((recsC8.map (fun r => r.opex)).sum) = 300 := by
    norm_num [recsC8]
  have hp : line_item_pcts_of recsC8 = [(("A"), 1/10)] := by
    simp only [line_item_pcts_of]
    rw [htot, if_pos (by norm_num : (0:ℝ) < 300), hsums]
    norm_num
  refine ⟨hp, ?_, ?_⟩
  · rw [hp]
    simp only [projLineItems, List.map_cons, List.map_nil]
    rw [pyRound_int 15000 _ (by norm_num)]
  · rw [hp]
    norm_num

/-- C1 witness. -/
theorem advance_tax_schedule_props_witness :
    (List.replicate 12 (100000:ℝ)).length = 12 ∧ 0 < (List.replicate 12 (100000:ℝ)).sum ∧
    (compute_advance_tax_schedule (List.replicate 12 100000) 0.25).getD 2 0 =
      pyRoundDec ((List.replicate 12 (100000:ℝ)).sum * 0.25 * 0.15) 2 :=
  ⟨by simp, by norm_num [List.sum_replicate],
   (advance_tax_schedule_props (List.replicate 12 100000) 0.25 (by simp)
      (by norm_num [List.sum_replicate])).2.2.1⟩

/-!  ## The analysis pipeline (main.py, `analyze_file` computational core)

The HTTP/parsing layers are out of scope; `analyze` consumes the normalized
monthly records and the caller overrides.  `pf` is an oracle for Python's
`float(...)` parser (`none` models a `ValueError`), and `hw` the statsmodels
fit oracle as above. -/

/-- The caller-supplied assumption overrides (raw strings, as in the JSON
`assumptions` form field). -/
structure Overrides where
  revenue_growth : Option String := none
  tax_rate : Option String := none
  new_capex : Option String := none

/-- Python's `str.strip()`: drop leading and trailing whitespace. -/
def pystrip (s : String) : String :=
  String.mk ((s.data.dropWhile Char.isWhitespace).reverse.dropWhile Char.isWhitespace).reverse

/-- The `revenue_growth` try/except block of main.py: `none` means "use the
selector", `some g` the manual growth fraction. -/
def resolveGrowth (pf : String → Option ℝ) (o : Option String) : Option ℝ :=
  let val := pystrip (o.getD (""))
  if val = ("") then none
  else
    match pf val with
    | some x => some (x / 100)
    | none => none

/-- The `tax_rate` try/except block of main.py (default 0.15). -/
def resolveTaxRate (pf : String → Option ℝ) (o : Option String) : ℝ :=
  let val := pystrip (o.getD (""))
  if val = ("") then 0.15
  else
    match pf val with
    | some x => x / 100
    | none => 0.15

/-- The `new_capex` try/except block of main.py (default 0, no scaling). -/
def resolveCapex (pf : String → Option ℝ) (o : Option String) : ℝ :=
  let val := pystrip (o.getD (""))
  if val = ("") then 0
  else
    match pf val with
    | some x => x
    | none => 0

/-- The working-capital and cost-ratio context computed once before the
month loop of main.py. -/
structure BridgeCtx where
  cogs_pct : ℝ
  opex_pct : ℝ
  payroll_pct : ℝ
  ar_pct : ℝ
  ap_pct : ℝ
  custom_capex : ℝ
  pcts : List (String × ℝ)

/-- One emitted month of the three-way model (main.py). -/
structure ThreeWayRow where
  month : String := ("")
  revenue : ℤ := 0
  cogs : ℤ := 0
  opex : ℤ := 0
  payroll : ℤ := 0
  capex : ℤ := 0
  debt : ℤ := 0
  ebitda : ℤ := 0
  net_profit : ℤ := 0
  tax_liability : ℤ := 0
  operating_profit_bwc : ℤ := 0
  delta_ar : ℤ := 0
  delta_ap : ℤ := 0
  cash_from_operations : ℤ := 0
  net_cash_operating : ℤ := 0
  net_cash_investing : ℤ := 0
  net_cash_financing : ℤ := 0
  net_cash_flow : ℤ := 0
  ending_cash : ℤ := 0
  is_tax_quarter : Bool := false
  line_items : List (String × ℤ) := []

def dummyRow : ThreeWayRow := {}

/-- Indian fiscal-year month labels (algorithms.py). -/
def INDIAN_FY_MONTHS : List String :=
  [("Apr"), ("May"), ("Jun"), ("Jul"), ("Aug"), ("Sep"),
   ("Oct"), ("Nov"), ("Dec"), ("Jan"), ("Feb"), ("Mar")]

/-- Phase 3 of main.py: the month-by-month three-way model build, carrying
`prev_ar`, `prev_ap` and `running_cash` across steps.  The consumed list
zips `baseline_forecast[i]`, `capex_forecast[i]`, `debt_forecast[i]` and
`advance_tax_monthly[i]`. -/
def buildRows (ctx : BridgeCtx) : ℕ → ℝ → ℝ → ℤ → List (ℝ × ℝ × ℝ × ℝ) → List ThreeWayRow
  | _, _, _, _, [] => []
  | i, prev_ar, prev_ap, running_cash, (val, cap, debt, tax) :: rest =>
    let proj_rev := val
    let proj_cogs := proj_rev * ctx.cogs_pct
    let proj_gp := proj_rev - proj_cogs
    let proj_opex := proj_rev * ctx.opex_pct
    let proj_payroll := proj_rev * ctx.payroll_pct
    let proj_ebitda := proj_gp - proj_opex - proj_payroll
    let proj_debt := debt
    let proj_capex := cap + ctx.custom_capex / 12
    let proj_net_profit := proj_ebitda - proj_debt - proj_capex
    let operating_profit_bwc := proj_ebitda
    let proj_ar := proj_rev * ctx.ar_pct
    let proj_ap := (proj_cogs + proj_opex + proj_payroll) * ctx.ap_pct
    let delta_ar := proj_ar - prev_ar
    let delta_ap := proj_ap - prev_ap
    let cash_from_operations := operating_profit_bwc + delta_ap - delta_ar
    let proj_tax := tax
    let net_cash_operating := cash_from_operations - proj_tax
    let net_cash_investing := -proj_capex
    let net_cash_financing := -proj_debt
    let cf_month := net_cash_operating + net_cash_investing + net_cash_financing
    let rounded_cf_month := pyRound cf_month
    let running2 := running_cash + rounded_cf_month
    let month_label :=
      if i < INDIAN_FY_MONTHS.length then INDIAN_FY_MONTHS.getD i ("")
      else ("M") ++ toString (i + 1)
    { month := month_label
      revenue := pyRound proj_rev
      cogs := pyRound proj_cogs
      opex := pyRound proj_opex
      payroll := pyRound proj_payroll
      capex := pyRound proj_capex
      debt := pyRound proj_debt
      ebitda := pyRound proj_ebitda
      net_profit := pyRound proj_net_profit
      tax_liability := pyRound proj_tax
      operating_profit_bwc := pyRound operating_profit_bwc
      delta_ar := pyRound delta_ar
      delta_ap := pyRound delta_ap
      cash_from_operations := pyRound cash_from_operations
      net_cash_operating := pyRound net_cash_operating
      net_cash_investing := pyRound net_cash_investing
      net_cash_financing := pyRound net_cash_financing
      net_cash_flow := rounded_cf_month
      ending_cash := running2
      is_tax_quarter := decide (0 < proj_tax)
      line_items := projLineItems ctx.pcts proj_opex } ::
      buildRows ctx (i + 1) proj_ar proj_ap running2 rest

def revenuesOf (data : List MonthlyRecord) : List ℝ := data.map (fun r => r.revenue)

def cogsArrOf (data : List MonthlyRecord) : List ℝ := data.map (fun r => r.cogs)

def opexArrOf (data : List MonthlyRecord) : List ℝ := data.map (fun r => r.opex)

def payrollArrOf (data : List MonthlyRecord) : List ℝ := data.map (fun r => r.payroll)

def debtArrOf (data : List MonthlyRecord) : List ℝ := data.map (fun r => r.debt_service)

def capexArrOf (data : List MonthlyRecord) : List ℝ := data.map (fun r => r.capex)

/-- The top-line forecast: either the manual compounding loop of main.py
(growth override) or the adaptive selector. -/
def baselineForecastOf (hw : ℕ → List ℝ → ℕ → Option (List ℝ)) (data : List MonthlyRecord)
    (g? : Option ℝ) : List ℝ :=
  match g? with
  | some g => slfAux g 12 ((revenuesOf data).getLastD 0)
  | none => multiple_linear_regression_forecast hw (revenuesOf data) 12

/-- The cost-percentage / working-capital context of main.py. -/
def ctxOf (data : List MonthlyRecord) (custom_capex : ℝ) : BridgeCtx :=
  let revenues := revenuesOf data
  let rm := data.getLastD {}
  let last_rev := if 0 < revenues.getLastD 0 then revenues.getLastD 0 else 1
  let last_costs0 := (cogsArrOf data).getLastD 0 + (opexArrOf data).getLastD 0 +
    (payrollArrOf data).getLastD 0
  let last_costs := if 0 < last_costs0 then last_costs0 else 1
  { cogs_pct := percent_of_sales (cogsArrOf data) revenues
    opex_pct := percent_of_sales (opexArrOf data) revenues
    payroll_pct := percent_of_sales (payrollArrOf data) revenues
    ar_pct := rm.ar_balance / last_rev
    ap_pct := rm.ap_balance / last_costs
    custom_capex := custom_capex
    pcts := line_item_pcts_of data }

/-- Phase 1 of main.py: raw EBT of each forecast month, consumed by the tax
scheduler before the final build. -/
def monthlyEbtOf (ctx : BridgeCtx) (triples : List (ℝ × ℝ × ℝ)) : List ℝ :=
  triples.map (fun t =>
    let proj_rev := t.1
    let proj_cogs := proj_rev * ctx.cogs_pct
    let proj_gp := proj_rev - proj_cogs
    let proj_opex := proj_rev * ctx.opex_pct
    let proj_payroll := proj_rev * ctx.payroll_pct
    let proj_ebitda := proj_gp - proj_opex - proj_payroll
    proj_ebitda - t.2.2 - (t.2.1 + ctx.custom_capex / 12))

/-- Phase 2 of main.py: the advance-tax vector for the whole forecast year. -/
def advTaxOf (hw : ℕ → List ℝ → ℕ → Option (List ℝ)) (data : List MonthlyRecord)
    (g? : Option ℝ) (ctr cc : ℝ) : List ℝ :=
  compute_advance_tax_schedule
    (monthlyEbtOf (ctxOf data cc)
      ((baselineForecastOf hw data g?).zip
        ((straight_line_forecast (capexArrOf data) 12).zip
          (straight_line_forecast (debtArrOf data) 12))))
    ctr

def zip4Of (baseline capexF debtF advTax : List ℝ) : List (ℝ × ℝ × ℝ × ℝ) :=
  baseline.zip (capexF.zip (debtF.zip advTax))

/-- The emitted `three_way_model` of main.py. -/
def threeWayOf (hw : ℕ → List ℝ → ℕ → Option (List ℝ)) (data : List MonthlyRecord)
    (g? : Option ℝ) (ctr cc : ℝ) : List ThreeWayRow :=
  buildRows (ctxOf data cc) 0 (data.getLastD {}).ar_balance (data.getLastD {}).ap_balance
    (pyRound (data.getLastD {}).cash_balance)
    (zip4Of (baselineForecastOf hw data g?) (straight_line_forecast (capexArrOf data) 12)
      (straight_line_forecast (debtArrOf data) 12) (advTaxOf hw data g? ctr cc))

/-- The confidence-cone `area_chart_data` of main.py. -/
def areaDataOf (baseline : List ℝ) : List (ℤ × ℤ × ℤ) :=
  baseline.enum.map (fun q =>
    let decay_factor := 1 + 0.02 * (q.1 : ℝ)
    (pyRound q.2, pyRound (max 0 (q.2 * (1 - 0.08 * decay_factor))),
     pyRound (q.2 * (1 + 0.08 * decay_factor))))

/-- The cash-waterfall bridge of main.py for the most recent actual month. -/
def waterfallOf (data : List MonthlyRecord) : List (String × ℤ × Bool) :=
  let rm := data.getLastD {}
  let start_cash := if 2 ≤ data.length then (data.getD (data.length - 2) {}).cash_balance else 0
  let gross_profit := rm.revenue - rm.cogs
  let ebitda := gross_profit - rm.opex - rm.payroll
  let net_profit := ebitda - rm.debt_service - rm.capex
  let calc_adv_tax := if 0 < net_profit then pyRound (net_profit * 0.15) else 0
  [(("Start Cash"), pyRound start_cash, true), (("Revenue"), pyRound rm.revenue, false),
   (("COGS"), pyRound (-rm.cogs), false)] ++
  (if 0 < rm.opex then [(("OpEx"), pyRound (-rm.opex), false)] else []) ++
  (if 0 < rm.payroll then [(("Payroll"), pyRound (-rm.payroll), false)] else []) ++
  (if 0 < rm.debt_service then [(("Debt / EMI"), pyRound (-rm.debt_service), false)] else []) ++
  (if 0 < rm.capex then [(("Capex"), pyRound (-rm.capex), false)] else []) ++
  (if 0 < calc_adv_tax then [(("Adv. Tax"), -calc_adv_tax, false)] else []) ++
  [(("End Cash"), pyRound rm.cash_balance, true)]

/-- The aggregate KPI block of main.py's response. -/
structure Kpis where
  projected_12m : ℤ := 0
  geo_growth_rate : ℝ := 0
  calculated_dso : ℝ := 0
  calculated_dpo : ℝ := 0
  gross_margin : ℝ := 0
  net_margin : ℝ := 0
  ebitda : ℤ := 0

/-- The analytical content of main.py's success response. -/
structure AnalysisOutput where
  kpis : Kpis := {}
  areaData : List (ℤ × ℤ × ℤ) := []
  waterfallData : List (String × ℤ × Bool) := []
  three_way_model : List ThreeWayRow := []
  estimated_annual_tax : ℤ := 0
  advance_tax_exempt : Bool := false

def dummyOut : AnalysisOutput := {}

/-- `analyze_file`'s core once the overrides are resolved: `none` models the
HTTP 400 rejection for fewer than 3 records. -/
def analyzeResolved (hw : ℕ → List ℝ → ℕ → Option (List ℝ)) (data : List MonthlyRecord)
    (g? : Option ℝ) (ctr cc : ℝ) : Option AnalysisOutput :=
  if data.length < 3 then none
  else
    let revenues := revenuesOf data
    let rm := data.getLastD {}
    let geo_growth := calculate_geometric_growth revenues
    let avg_dso := countback_dso rm.ar_balance revenues.reverse
    let avg_monthly_cogs :=
      if (cogsArrOf data) = [] then 0
      else (cogsArrOf data).sum / ((cogsArrOf data).length : ℝ)
    let calc_dpo :=
      if 0 < avg_monthly_cogs then rm.ap_balance / (avg_monthly_cogs * 12) * 365 else 0
    let gross_profit := rm.revenue - rm.cogs
    let ebitda := gross_profit - rm.opex - rm.payroll
    let net_profit := ebitda - rm.debt_service - rm.capex
    let gross_margin := if 0 < rm.revenue then gross_profit / rm.revenue * 100 else 0
    let net_margin := if 0 < rm.revenue then net_profit / rm.revenue * 100 else 0
    let baseline := baselineForecastOf hw data g?
    let advTax := advTaxOf hw data g? ctr cc
    some {
      kpis := {
        projected_12m := pyRound baseline.sum
        geo_growth_rate := pyRoundDec (geo_growth * 100) 2
        calculated_dso := pyRoundDec avg_dso 1
        calculated_dpo := pyRoundDec calc_dpo 1
        gross_margin := pyRoundDec gross_margin 2
        net_margin := pyRoundDec net_margin 2
        ebitda := pyRound ebitda }
      areaData := areaDataOf baseline
      waterfallData := waterfallOf data
      three_way_model := threeWayOf hw data g? ctr cc
      estimated_annual_tax := pyRound advTax.sum
      advance_tax_exempt := decide (advTax.sum < 10000) }

/-- `analyze_file`'s computational core: resolve the three overrides, then run
the resolved pipeline. -/
def analyze (pf : String → Option ℝ) (hw : ℕ → List ℝ → ℕ → Option (List ℝ))
    (data : List MonthlyRecord) (ov : Overrides) : Option AnalysisOutput :=
  analyzeResolved hw data (resolveGrowth pf ov.revenue_growth)
    (resolveTaxRate pf ov.tax_rate) (resolveCapex pf ov.new_capex)

theorem pyRound_add3_close (x y z : ℝ) :
    |pyRound (x + y + z) - (pyRound x + pyRound y + pyRound z)| ≤ 2 := by
  have hx := pyRound_sub_le x
  have hy := pyRound_sub_le y
  have hz := pyRound_sub_le z
  have hs := pyRound_sub_le (x + y + z)
  have hr : |((pyRound (x + y + z) - (pyRound x + pyRound y + pyRound z) : ℤ) : ℝ)| ≤ 2 := by
    push_cast
    rw [abs_le] at hx hy hz hs ⊢
    constructor <;> linarith
  exact_mod_cast hr

theorem buildRows_length (ctx : BridgeCtx) :
    ∀ (l : List (ℝ × ℝ × ℝ × ℝ)) (i : ℕ) (par pap : ℝ) (run : ℤ),
      (buildRows ctx i par pap run l).length = l.length := by
  intro l
  induction l with
  | nil => intro i par pap run; rfl
  | cons t rest ih =>
    intro i par pap run
    obtain ⟨val, cap, debt, tax⟩ := t
    simp only [buildRows, List.length_cons, ih]

theorem buildRows_ncf_close (ctx : BridgeCtx) :
    ∀ (l : List (ℝ × ℝ × ℝ × ℝ)) (i : ℕ) (par pap : ℝ) (run : ℤ),
      ∀ row ∈ buildRows ctx i par pap run l,
        |row.net_cash_flow - (row.net_cash_operating + row.net_cash_investing +
          row.net_cash_financing)| ≤ 2 := by
  intro l
  induction l with
  | nil => intro i par pap run row h; simp [buildRows] at h
  | cons t rest ih =>
    intro i par pap run row h
    obtain ⟨val, cap, debt, tax⟩ := t
    simp only [buildRows, List.mem_cons] at h
    rcases h with h | h
    · subst h
      exact pyRound_add3_close _ _ _
    · exact ih _ _ _ _ row h

theorem buildRows_head_ending (ctx : BridgeCtx) (l : List (ℝ × ℝ × ℝ × ℝ)) (i : ℕ)
    (par pap : ℝ) (run : ℤ) (r : ThreeWayRow)
    (h : (buildRows ctx i par pap run l).head? = some r) :
    r.ending_cash = run + r.net_cash_flow := by
  cases l with
  | nil => simp [buildRows] at h
  | cons t rest =>
    obtain ⟨val, cap, debt, tax⟩ := t
    simp only [buildRows, List.head?_cons, Option.some.injEq] at h
    subst h
    rfl

theorem buildRows_chainD (ctx : BridgeCtx) :
    ∀ (l : List (ℝ × ℝ × ℝ × ℝ)) (i : ℕ) (par pap : ℝ) (run : ℤ) (j : ℕ),
      j + 1 < (buildRows ctx i par pap run l).length →
      ((buildRows ctx i par pap run l).getD (j+1) dummyRow).ending_cash =
        ((buildRows ctx i par pap run l).getD j dummyRow).ending_cash +
        ((buildRows ctx i par pap run l).getD (j+1) dummyRow).net_cash_flow := by
  intro l
  induction l with
  | nil => intro i par pap run j hj; simp [buildRows] at hj
  | cons t rest ih =>
    intro i par pap run j hj
    obtain ⟨val, cap, debt, tax⟩ := t
    cases j with
    | zero =>
      cases rest with
      | nil => simp [buildRows] at hj
      | cons t2 rest2 =>
        obtain ⟨v2, c2, d2, x2⟩ := t2
        simp only [buildRows, List.getD_cons_succ, List.getD_cons_zero]
    | succ k =>
      simp only [buildRows, List.getD_cons_succ]
      apply ih
      simp only [buildRows, List.length_cons] at hj
      omega

theorem buildRows_inv_fin_nonpos (ctx : BridgeCtx) :
    ∀ (l : List (ℝ × ℝ × ℝ × ℝ)) (i : ℕ) (par pap : ℝ) (run : ℤ),
      (∀ e ∈ l, 0 ≤ e.2.1 ∧ 0 ≤ e.2.2.1) →
      ∀ row ∈ buildRows ctx i par pap run l,
        row.net_cash_financing ≤ 0 ∧
        (0 ≤ ctx.custom_capex → row.net_cash_investing ≤ 0) := by
  intro l
  induction l with
  | nil => intro i par pap run _ row h; simp [buildRows] at h
  | cons t rest ih =>
    intro i par pap run hl row h
    obtain ⟨val, cap, debt, tax⟩ := t
    simp only [buildRows, List.mem_cons] at h
    rcases h with h | h
    · subst h
      obtain ⟨hcap, hdebt⟩ := hl (val, cap, debt, tax) (by simp)
      constructor
      · show pyRound (-debt) ≤ 0
        apply pyRound_nonpos
        linarith
      · intro hcc
        show pyRound (-(cap + ctx.custom_capex / 12)) ≤ 0
        apply pyRound_nonpos
        have h12 : 0 ≤ ctx.custom_capex / 12 := by positivity
        linarith
    · exact ih (i+1) _ _ _ (fun e he => hl e (by simp [he])) row h

theorem analyze_out_tw (pf : String → Option ℝ) (hw : ℕ → List ℝ → ℕ → Option (List ℝ))
    (data : List MonthlyRecord) (ov : Overrides) (out : AnalysisOutput)
    (hout : analyze pf hw data ov = some out) :
    out.three_way_model = threeWayOf hw data (resolveGrowth pf ov.revenue_growth)
      (resolveTaxRate pf ov.tax_rate) (resolveCapex pf ov.new_capex) := by
  unfold analyze analyzeResolved at hout
  by_cases h3 : data.length < 3
  · rw [if_pos h3] at hout
    exact absurd hout (by simp)
  · rw [if_neg h3] at hout
    have h := Option.some.inj hout
    rw [← h]

/-- C2 (amended): for every forecast month of the emitted three-way model,
`net_cash_flow` (the rounding of the unrounded sum) matches the sum of the
three independently rounded component fields within ±2 currency units (four
independent half-unit roundings), not ±1. -/
theorem net_cash_flow_identity_2units (pf : String → Option ℝ)
    (hw : ℕ → List ℝ → ℕ → Option (List ℝ)) (data : List MonthlyRecord) (ov : Overrides)
    (out : AnalysisOutput) (hout : analyze pf hw data ov = some out) :
    ∀ row ∈ out.three_way_model,
      |row.net_cash_flow - (row.net_cash_operating + row.net_cash_investing +
        row.net_cash_financing)| ≤ 2 := by
  rw [analyze_out_tw pf hw data ov out hout]
  unfold threeWayOf
  exact buildRows_ncf_close _ _ _ _ _ _

/-- C5: in the emitted three-way model, each month's `ending_cash` is exactly
the previous month's `ending_cash` plus this month's (already rounded)
`net_cash_flow` — in particular within ±1 — and the first month starts from
the rounded cash balance of the most recent actual record. -/
theorem ending_cash_accumulation (pf : String → Option ℝ)
    (hw : ℕ → List ℝ → ℕ → Option (List ℝ)) (data : List MonthlyRecord) (ov : Overrides)
    (out : AnalysisOutput) (hout : analyze pf hw data ov = some out) (j : ℕ)
    (hj : j + 1 < out.three_way_model.length) :
    (out.three_way_model.getD (j+1) dummyRow).ending_cash =
      (out.three_way_model.getD j dummyRow).ending_cash +
      (out.three_way_model.getD (j+1) dummyRow).net_cash_flow ∧
    (∀ r, out.three_way_model.head? = some r →
      r.ending_cash = pyRound ((data.getLastD {}).cash_balance) + r.net_cash_flow) := by
  have htw := analyze_out_tw pf hw data ov out hout
  constructor
  · rw [htw] at hj ⊢
    unfold threeWayOf at hj ⊢
    exact buildRows_chainD _ _ _ _ _ _ j hj
  · intro r hr
    rw [htw] at hr
    unfold threeWayOf at hr
    exact buildRows_head_ending _ _ _ _ _ _ r hr

/-- C6 (amended): for every emitted month and every input history and
override set, `net_cash_financing ≤ 0` unconditionally, and
`net_cash_investing ≤ 0` whenever the resolved capex override is
non-negative (absent and unparseable overrides resolve to 0); a negative
caller-supplied capex override can break the investing bound. -/
theorem investing_financing_nonpos (pf : String → Option ℝ)
    (hw : ℕ → List ℝ → ℕ → Option (List ℝ)) (data : List MonthlyRecord) (ov : Overrides)
    (out : AnalysisOutput) (hout : analyze pf hw data ov = some out) :
    ∀ row ∈ out.three_way_model,
      row.net_cash_financing ≤ 0 ∧
      (0 ≤ resolveCapex pf ov.new_capex → row.net_cash_investing ≤ 0) := by
  rw [analyze_out_tw pf hw data ov out hout]
  unfold threeWayOf
  apply buildRows_inv_fin_nonpos
  intro e he
  unfold zip4Of at he
  have h1 := List.of_mem_zip he
  have h2 := List.of_mem_zip h1.2
  have h3 := List.of_mem_zip h2.2
  exact ⟨slf_nonneg _ _ _ h2.1, slf_nonneg _ _ _ h3.1⟩

theorem resolveGrowth_none (pf : String → Option ℝ) : resolveGrowth pf none = none := by
  simp only [resolveGrowth, Option.getD_none]
  rw [if_pos (show pystrip ("") = ("") by decide)]

theorem resolveGrowth_fail (pf : String → Option ℝ) (s : String)
    (h : pf (pystrip s) = none) : resolveGrowth pf (some s) = none := by
  simp only [resolveGrowth, Option.getD_some]
  by_cases hv : pystrip s = ("")
  · rw [if_pos hv]
  · rw [if_neg hv, h]

theorem resolveTaxRate_none (pf : String → Option ℝ) : resolveTaxRate pf none = 0.15 := by
  simp only [resolveTaxRate, Option.getD_none]
  rw [if_pos (show pystrip ("") = ("") by decide)]

theorem resolveTaxRate_fail (pf : String → Option ℝ) (s : String)
    (h : pf (pystrip s) = none) : resolveTaxRate pf (some s) = 0.15 := by
  simp only [resolveTaxRate, Option.getD_some]
  by_cases hv : pystrip s = ("")
  · rw [if_pos hv]
  · rw [if_neg hv, h]

theorem resolveCapex_none (pf : String → Option ℝ) : resolveCapex pf none = 0 := by
  simp only [resolveCapex, Option.getD_none]
  rw [if_pos (show pystrip ("") = ("") by decide)]

theorem resolveCapex_fail (pf : String → Option ℝ) (s : String)
    (h : pf (pystrip s) = none) : resolveCapex pf (some s) = 0 := by
  simp only [resolveCapex, Option.getD_some]
  by_cases hv : pystrip s = ("")
  · rw [if_pos hv]
  · rw [if_neg hv, h]

/-- C9: overrides whose (stripped) strings fail to parse are ignored: the
growth override falls back to the selector (`none`), the tax rate to 0.15,
the capex to 0, and the whole analysis result is identical to the result
with those overrides absent. -/
theorem invalid_overrides_ignored (pf : String → Option ℝ)
    (hw : ℕ → List ℝ → ℕ → Option (List ℝ)) (data : List MonthlyRecord)
    (o1 o2 o3 : Option String)
    (h1 : ∀ s, o1 = some s → pf (pystrip s) = none)
    (h2 : ∀ s, o2 = some s → pf (pystrip s) = none)
    (h3 : ∀ s, o3 = some s → pf (pystrip s) = none) :
    analyze pf hw data ⟨o1, o2, o3⟩ = analyze pf hw data ⟨none, none, none⟩ ∧
    resolveGrowth pf o1 = none ∧
    resolveTaxRate pf o2 = 0.15 ∧
    resolveCapex pf o3 = 0 := by
  have e1 : resolveGrowth pf o1 = none := by
    cases o1 with
    | none => exact resolveGrowth_none pf
    | some s => exact resolveGrowth_fail pf s (h1 s rfl)
  have e2 : resolveTaxRate pf o2 = 0.15 := by
    cases o2 with
    | none => exact resolveTaxRate_none pf
    | some s => exact resolveTaxRate_fail pf s (h2 s rfl)
  have e3 : resolveCapex pf o3 = 0 := by
    cases o3 with
    | none => exact resolveCapex_none pf
    | some s => exact resolveCapex_fail pf s (h3 s rfl)
  refine ⟨?_, e1, e2, e3⟩
  simp only [analyze]
  rw [e1, e2, e3, resolveGrowth_none, resolveTaxRate_none, resolveCapex_none]

/-- C9 witness. -/
theorem invalid_overrides_ignored_witness :
    analyze (fun _ => none) (fun _ _ _ => none) []
        ⟨some ("abc"), some ("xyz"), some ("pqr")⟩ =
      analyze (fun _ => none) (fun _ _ _ => none) [] ⟨none, none, none⟩ ∧
    resolveGrowth (fun _ => none) (some ("abc")) = none ∧
    resolveTaxRate (fun _ => none) (some ("xyz")) = 0.15 ∧
    resolveCapex (fun _ => none) (some ("pqr")) = 0 :=
  invalid_overrides_ignored (fun _ => none) (fun _ _ _ => none) []
    (some ("abc")) (some ("xyz")) (some ("pqr"))
    (fun _ _ => rfl) (fun _ _ => rfl) (fun _ _ => rfl)

/-!  ## Concrete inputs for counterexamples and witnesses  -/

theorem getD_mem_of_lt {α : Type} (l : List α) (n : ℕ) (d : α) (h : n < l.length) :
    l.getD n d ∈ l := by
  rw [List.getD_eq_getElem l d h]
  exact List.getElem_mem h

theorem pos_zero_num (dep : List ℝ) (rev : List ℝ) (hd : dep.sum = 0) :
    percent_of_sales dep rev = 0 := by
  simp only [percent_of_sales, hd]
  split_ifs <;> norm_num

theorem cgg_const3 (c : ℝ) (hc : 0 < c) : calculate_geometric_growth [c, c, c] = 0 := by
  have d1 : decide (0 < c) = true := decide_eq_true hc
  have hdc : c / c = 1 := div_self (ne_of_gt hc)
  simp only [calculate_geometric_growth, List.length_cons, List.length_nil, List.filter_cons,
    List.filter_nil, d1, if_true]
  rw [if_neg (by norm_num), if_neg (by norm_num)]
  simp only [List.tail_cons, List.zip_cons_cons, List.zip_nil_right, List.foldl_cons,
    List.foldl_nil, hdc]
  norm_num [Real.one_rpow]

theorem cgg_zeros3 : calculate_geometric_growth [(0:ℝ), 0, 0] = 0 := by
  have d1 : decide ((0:ℝ) < 0) = false := decide_eq_false (by norm_num)
  simp only [calculate_geometric_growth, List.length_cons, List.length_nil, List.filter_cons,
    List.filter_nil, d1]
  norm_num

theorem slf_const3 (c : ℝ) (hc : 0 < c) :
    straight_line_forecast [c, c, c] 12 = slfAux 0 12 c := by
  simp only [straight_line_forecast]
  rw [if_neg (by simp)]
  rw [cgg_const3 c hc]
  rw [show max (-0.15) (min 0.15 (0:ℝ)) = 0 by
    rw [min_eq_right (by norm_num), max_eq_right (by norm_num)]]
  simp

theorem slf_zeros3 : straight_line_forecast [(0:ℝ), 0, 0] 12 = slfAux 0 12 0 := by
  simp only [straight_line_forecast]
  rw [if_neg (by simp)]
  rw [cgg_zeros3]
  rw [show max (-0.15) (min 0.15 (0:ℝ)) = 0 by
    rw [min_eq_right (by norm_num), max_eq_right (by norm_num)]]
  simp

theorem zip4_cons (a b c d : ℝ) (t1 t2 t3 t4 : List ℝ) :
    zip4Of (a :: t1) (b :: t2) (c :: t3) (d :: t4) = (a, b, c, d) :: zip4Of t1 t2 t3 t4 := by
  simp [zip4Of, List.zip_cons_cons]

/-- Python float-parse oracle used by the concrete scenarios. -/
def pfX : String → Option ℝ := fun s =>
  if s = ("50") then some 50
  else if s = ("0") then some 0
  else if s = ("-1200") then some (-1200)
  else none

/-- Holt-Winters oracle that always raises (forces the fallback paths). -/
def hwNone : ℕ → List ℝ → ℕ → Option (List ℝ) := fun _ _ _ => none

theorem pfX_growth50 : resolveGrowth pfX (some ("50")) = some (1/2) := by
  simp only [resolveGrowth, Option.getD_some]
  rw [show pystrip ("50") = ("50") by decide]
  rw [if_neg (show ¬ (("50") : String) = ("") by decide)]
  rw [show pfX ("50") = some 50 from rfl]
  norm_num

theorem pfX_growth0 : resolveGrowth pfX (some ("0")) = some 0 := by
  simp only [resolveGrowth, Option.getD_some]
  rw [show pystrip ("0") = ("0") by decide]
  rw [if_neg (show ¬ (("0") : String) = ("") by decide)]
  rw [show pfX ("0") = some 0 from rfl]
  norm_num

theorem pfX_tax0 : resolveTaxRate pfX (some ("0")) = 0 := by
  simp only [resolveTaxRate, Option.getD_some]
  rw [show pystrip ("0") = ("0") by decide]
  rw [if_neg (show ¬ (("0") : String) = ("") by decide)]
  rw [show pfX ("0") = some 0 from rfl]
  norm_num

theorem pfX_capexNeg : resolveCapex pfX (some ("-1200")) = -1200 := by
  simp only [resolveCapex, Option.getD_some]
  rw [show pystrip ("-1200") = ("-1200") by decide]
  rw [if_neg (show ¬ (("-1200") : String) = ("") by decide)]
  rw [show pfX ("-1200") = some (-1200) from rfl]

/-- Three identical actual months with revenue 1, debt service 0.5 and capex
0.5 each (all other fields 0): drives the C2 counterexample. -/
def recA : MonthlyRecord := { revenue := 1, debt_service := 0.5, capex := 0.5 }

def dataA : List MonthlyRecord := [recA, recA, recA]

/-- Overrides for the C2 counterexample: manual revenue growth 50%, tax 0%. -/
def ovA : Overrides := ⟨some ("50"), some ("0"), none⟩

/-- Three identical actual months with revenue 1 and nothing else. -/
def recB : MonthlyRecord := { revenue := 1 }

def dataB : List MonthlyRecord := [recB, recB, recB]

/-- Overrides for the C6 counterexample: flat revenue, capex override −1200. -/
def ovB : Overrides := ⟨some ("0"), none, some ("-1200")⟩

/-- Benign overrides (flat revenue, defaults otherwise) for the witnesses. -/
def ovC : Overrides := ⟨some ("0"), none, none⟩

theorem ctxA_eq : ctxOf dataA 0 = ⟨0, 0, 0, 0, 0, 0, []⟩ := by
  have h1 : percent_of_sales (cogsArrOf dataA) (revenuesOf dataA) = 0 :=
    pos_zero_num _ _ (by norm_num [cogsArrOf, dataA, recA])
  have h2 : percent_of_sales (opexArrOf dataA) (revenuesOf dataA) = 0 :=
    pos_zero_num _ _ (by norm_num [opexArrOf, dataA, recA])
  have h3 : percent_of_sales (payrollArrOf dataA) (revenuesOf dataA) = 0 :=
    pos_zero_num _ _ (by norm_num [payrollArrOf, dataA, recA])
  have hrm : dataA.getLastD {} = recA := by simp [dataA]
  have htot : ((dataA.map (fun r => r.opex)).sum) = 0 := by norm_num [dataA, recA]
  have hpct : line_item_pcts_of dataA = [] := by
    simp only [line_item_pcts_of, htot]
    rw [if_neg (by norm_num : ¬ ((0:ℝ) < 0))]
  simp only [ctxOf, h1, h2, h3, hrm, hpct]
  simp [recA, BridgeCtx.mk.injEq]

theorem ctxB_eq : ctxOf dataB (-1200) = ⟨0, 0, 0, 0, 0, -1200, []⟩ := by
  have h1 : percent_of_sales (cogsArrOf dataB) (revenuesOf dataB) = 0 :=
    pos_zero_num _ _ (by norm_num [cogsArrOf, dataB, recB])
  have h2 : percent_of_sales (opexArrOf dataB) (revenuesOf dataB) = 0 :=
    pos_zero_num _ _ (by norm_num [opexArrOf, dataB, recB])
  have h3 : percent_of_sales (payrollArrOf dataB) (revenuesOf dataB) = 0 :=
    pos_zero_num _ _ (by norm_num [payrollArrOf, dataB, recB])
  have hrm : dataB.getLastD {} = recB := by simp [dataB]
  have htot : ((dataB.map (fun r => r.opex)).sum) = 0 := by norm_num [dataB, recB]
  have hpct : line_item_pcts_of dataB = [] := by
    simp only [line_item_pcts_of, htot]
    rw [if_neg (by norm_num : ¬ ((0:ℝ) < 0))]
  simp only [ctxOf, h1, h2, h3, hrm, hpct]
  simp [recB, BridgeCtx.mk.injEq]

theorem capexArrA : capexArrOf dataA = [(1:ℝ)/2, 1/2, 1/2] := by
  norm_num [capexArrOf, dataA, recA]

theorem debtArrA : debtArrOf dataA = [(1:ℝ)/2, 1/2, 1/2] := by
  norm_num [debtArrOf, dataA, recA]

theorem baseA : baselineForecastOf hwNone dataA (some (1/2)) = (3/2) :: slfAux (1/2) 11 (3/2) := by
  simp only [baselineForecastOf]
  rw [show (revenuesOf dataA).getLastD 0 = 1 by norm_num [revenuesOf, dataA, recA]]
  rw [show slfAux (1/2) 12 (1:ℝ) =
      max 0 ((1:ℝ) * (1 + 1/2)) :: slfAux (1/2) 11 ((1:ℝ) * (1 + 1/2)) from rfl]
  norm_num [max_eq_right]

theorem capFA : straight_line_forecast (capexArrOf dataA) 12 = (1/2) :: slfAux 0 11 (1/2) := by
  rw [capexArrA, show ([(1:ℝ)/2, 1/2, 1/2]) = [((1:ℝ)/2), (1:ℝ)/2, (1:ℝ)/2] from rfl,
    slf_const3 ((1:ℝ)/2) (by norm_num)]
  rw [show slfAux 0 12 ((1:ℝ)/2) =
      max 0 (((1:ℝ)/2) * (1 + 0)) :: slfAux 0 11 (((1:ℝ)/2) * (1 + 0)) from rfl]
  norm_num [max_eq_right]

theorem debtFA : straight_line_forecast (debtArrOf dataA) 12 = (1/2) :: slfAux 0 11 (1/2) := by
  rw [debtArrA, show ([(1:ℝ)/2, 1/2, 1/2]) = [((1:ℝ)/2), (1:ℝ)/2, (1:ℝ)/2] from rfl,
    slf_const3 ((1:ℝ)/2) (by norm_num)]
  rw [show slfAux 0 12 ((1:ℝ)/2) =
      max 0 (((1:ℝ)/2) * (1 + 0)) :: slfAux 0 11 (((1:ℝ)/2) * (1 + 0)) from rfl]
  norm_num [max_eq_right]

theorem advA : advTaxOf hwNone dataA (some (1/2)) 0 0 = 0 :: List.replicate 11 0 := by
  unfold advTaxOf
  rw [advtax_zero_rate]
  rfl

theorem resA_eq : analyze pfX hwNone dataA ovA = analyzeResolved hwNone dataA (some (1/2)) 0 0 := by
  simp only [analyze, ovA]
  rw [pfX_growth50, pfX_tax0, resolveCapex_none]

theorem twA_eq : ((analyze pfX hwNone dataA ovA).getD dummyOut).three_way_model =
    buildRows ⟨0, 0, 0, 0, 0, 0, []⟩ 0 0 0 0
      ((3/2, 1/2, 1/2, 0) ::
        zip4Of (slfAux (1/2) 11 (3/2)) (slfAux 0 11 (1/2)) (slfAux 0 11 (1/2))
          (List.replicate 11 0)) := by
  rw [resA_eq]
  simp only [analyzeResolved]
  rw [if_neg (by norm_num [dataA] : ¬ (dataA.length < 3))]
  simp only [Option.getD_some]
  show threeWayOf hwNone dataA (some (1/2)) 0 0 = _
  unfold threeWayOf
  rw [ctxA_eq, baseA, capFA, debtFA, advA, zip4_cons]
  rw [show dataA.getLastD {} = recA from by simp [dataA]]
  rw [show recA.ar_balance = 0 from rfl, show recA.ap_balance = 0 from rfl]
  rw [show pyRound recA.cash_balance = 0 from pyRound_int 0 _ (by norm_num [recA])]

def rowA0 : ThreeWayRow :=
  ((analyze pfX hwNone dataA ovA).getD dummyOut).three_way_model.getD 0 dummyRow

/-- C2 counterexample: on history `dataA` (three months of revenue 1, debt
service 0.5, capex 0.5) with 50% growth override and 0% tax, the first
emitted month rounds `net_cash_operating` to 2 and both outflow components
to 0, while `net_cash_flow` rounds the unrounded sum 0.5 to 0 — off by 2
units from the component sum, so the claimed ±1 bound fails. -/
theorem net_cash_flow_off_by_two_cex :
    rowA0.net_cash_operating = 2 ∧ rowA0.net_cash_investing = 0 ∧
    rowA0.net_cash_financing = 0 ∧ rowA0.net_cash_flow = 0 ∧
    ¬ (|rowA0.net_cash_flow - (rowA0.net_cash_operating + rowA0.net_cash_investing +
        rowA0.net_cash_financing)| ≤ 1) := by
  have ha : rowA0.net_cash_operating = 2 := by
    unfold rowA0
    rw [twA_eq]
    simp only [buildRows, List.getD_cons_zero]
    exact pyRound_tie_odd _ 1 (by norm_num) (by norm_num) (by norm_num) (by decide)
  have hb : rowA0.net_cash_investing = 0 := by
    unfold rowA0
    rw [twA_eq]
    simp only [buildRows, List.getD_cons_zero]
    refine pyRound_tie_odd _ (-1) ?_ ?_ ?_ (by decide) <;> norm_num
  have hc : rowA0.net_cash_financing = 0 := by
    unfold rowA0
    rw [twA_eq]
    simp only [buildRows, List.getD_cons_zero]
    refine pyRound_tie_odd _ (-1) ?_ ?_ ?_ (by decide) <;> norm_num
  have hd : rowA0.net_cash_flow = 0 := by
    unfold rowA0
    rw [twA_eq]
    simp only [buildRows, List.getD_cons_zero]
    exact pyRound_tie_even _ 0 (by norm_num) (by norm_num) (by norm_num) (by decide)
  refine ⟨ha, hb, hc, hd, ?_⟩
  rw [ha, hb, hc, hd]
  norm_num

theorem capexArrB : capexArrOf dataB = [(0:ℝ), 0, 0] := by
  norm_num [capexArrOf, dataB, recB]

theorem debtArrB : debtArrOf dataB = [(0:ℝ), 0, 0] := by
  norm_num [debtArrOf, dataB, recB]

theorem baseB : baselineForecastOf hwNone dataB (some 0) = (1:ℝ) :: slfAux 0 11 1 := by
  simp only [baselineForecastOf]
  rw [show (revenuesOf dataB).getLastD 0 = 1 by norm_num [revenuesOf, dataB, recB]]
  rw [show slfAux 0 12 (1:ℝ) =
      max 0 ((1:ℝ) * (1 + 0)) :: slfAux 0 11 ((1:ℝ) * (1 + 0)) from rfl]
  norm_num [max_eq_right]

theorem capFB : straight_line_forecast (capexArrOf dataB) 12 = (0:ℝ) :: slfAux 0 11 0 := by
  rw [capexArrB, slf_zeros3]
  rw [show slfAux 0 12 (0:ℝ) =
      max 0 ((0:ℝ) * (1 + 0)) :: slfAux 0 11 ((0:ℝ) * (1 + 0)) from rfl]
  norm_num

theorem debtFB : straight_line_forecast (debtArrOf dataB) 12 = (0:ℝ) :: slfAux 0 11 0 := by
  rw [debtArrB, slf_zeros3]
  rw [show slfAux 0 12 (0:ℝ) =
      max 0 ((0:ℝ) * (1 + 0)) :: slfAux 0 11 ((0:ℝ) * (1 + 0)) from rfl]
  norm_num

theorem resB_eq : analyze pfX hwNone dataB ovB =
    analyzeResolved hwNone dataB (some 0) 0.15 (-1200) := by
  simp only [analyze, ovB]
  rw [pfX_growth0, resolveTaxRate_none, pfX_capexNeg]

def rowB0 : ThreeWayRow :=
  ((analyze pfX hwNone dataB ovB).getD dummyOut).three_way_model.getD 0 dummyRow

theorem rowB0_nci : rowB0.net_cash_investing = 100 := by
  obtain ⟨tailB, htB⟩ := advtax_head
    (monthlyEbtOf (ctxOf dataB (-1200))
      ((baselineForecastOf hwNone dataB (some 0)).zip
        ((straight_line_forecast (capexArrOf dataB) 12).zip
          (straight_line_forecast (debtArrOf dataB) 12)))) 0.15
  unfold rowB0
  rw [resB_eq]
  simp only [analyzeResolved]
  rw [if_neg (by norm_num [dataB] : ¬ (dataB.length < 3))]
  simp only [Option.getD_some]
  show ((threeWayOf hwNone dataB (some 0) 0.15 (-1200) : List ThreeWayRow).getD 0
    dummyRow).net_cash_investing = 100
  unfold threeWayOf
  rw [show advTaxOf hwNone dataB (some 0) 0.15 (-1200) = 0 :: tailB from htB]
  rw [ctxB_eq, baseB, capFB, debtFB, zip4_cons]
  simp only [buildRows, List.getD_cons_zero]
  refine pyRound_int 100 _ ?_
  norm_num

/-- C6 counterexample: with the caller-supplied capex override "-1200"
(which parses to −1200), the first emitted month of the three-way model has
`net_cash_investing = 100 > 0`: the claimed invariant fails for negative
overrides. -/
theorem investing_positive_cex :
    resolveCapex pfX ovB.new_capex = -1200 ∧
    rowB0.net_cash_investing = 100 ∧
    ¬ (rowB0.net_cash_investing ≤ 0) := by
  refine ⟨?_, rowB0_nci, ?_⟩
  · rw [show ovB.new_capex = some ("-1200") from rfl]
    exact pfX_capexNeg
  · rw [rowB0_nci]
    norm_num

theorem outC_res : analyze pfX hwNone dataB ovC =
    analyzeResolved hwNone dataB (some 0) 0.15 0 := by
  simp only [analyze, ovC]
  rw [pfX_growth0, resolveTaxRate_none, resolveCapex_none]

theorem outC_eq : analyze pfX hwNone dataB ovC =
    some ((analyze pfX hwNone dataB ovC).getD dummyOut) := by
  rw [outC_res]
  simp only [analyzeResolved]
  rw [if_neg (by norm_num [dataB] : ¬ (dataB.length < 3))]
  rw [Option.getD_some]

theorem twC_len : ((analyze pfX hwNone dataB ovC).getD dummyOut).three_way_model.length = 12 := by
  have htw := analyze_out_tw pfX hwNone dataB ovC _ outC_eq
  rw [htw]
  unfold threeWayOf
  rw [buildRows_length]
  unfold zip4Of advTaxOf
  rw [List.length_zip, List.length_zip, List.length_zip, slf_length, slf_length, advtax_length]
  rw [show resolveGrowth pfX ovC.revenue_growth = some 0 from pfX_growth0]
  simp only [baselineForecastOf]
  rw [slfAux_length]
  norm_num

def rowC0 : ThreeWayRow :=
  ((analyze pfX hwNone dataB ovC).getD dummyOut).three_way_model.getD 0 dummyRow

/-- C2 witness. -/
theorem net_cash_flow_identity_2units_witness :
    |rowC0.net_cash_flow - (rowC0.net_cash_operating + rowC0.net_cash_investing +
      rowC0.net_cash_financing)| ≤ 2 :=
  net_cash_flow_identity_2units pfX hwNone dataB ovC _ outC_eq rowC0
    (getD_mem_of_lt _ 0 dummyRow (by rw [twC_len]; norm_num))

/-- C5 witness. -/
theorem ending_cash_accumulation_witness :
    (((analyze pfX hwNone dataB ovC).getD dummyOut).three_way_model.getD 1
        dummyRow).ending_cash =
      (((analyze pfX hwNone dataB ovC).getD dummyOut).three_way_model.getD 0
        dummyRow).ending_cash +
      (((analyze pfX hwNone dataB ovC).getD dummyOut).three_way_model.getD 1
        dummyRow).net_cash_flow ∧
    (∀ r, ((analyze pfX hwNone dataB ovC).getD dummyOut).three_way_model.head? = some r →
      r.ending_cash = pyRound ((dataB.getLastD {}).cash_balance) + r.net_cash_flow) :=
  ending_cash_accumulation pfX hwNone dataB ovC _ outC_eq 0 (by rw [twC_len]; norm_num)

/-- C6 witness. -/
theorem investing_financing_nonpos_witness :
    rowC0.net_cash_financing ≤ 0 ∧
    (0 ≤ resolveCapex pfX ovC.new_capex → rowC0.net_cash_investing ≤ 0) :=
  investing_financing_nonpos pfX hwNone dataB ovC _ outC_eq rowC0
    (getD_mem_of_lt _ 0 dummyRow (by rw [twC_len]; norm_num))
